import Mathlib

/-!
Verification of the ytermusic core: the tree crawler and entity extractors
(`ytpapi/src/structs.rs`), the incremental search pipeline
(`src/term/search.rs`), and the shutdown/supervision wrapper (`src/main.rs`),
shallowly embedded in Lean.
-/

set_option maxHeartbeats 1000000
set_option maxRecDepth 10000

namespace YT

/-- A `serde_json::Value` document: null, booleans, numbers, strings,
ordered sequences, and mappings (association lists, visited in the
document's own key order). Numbers are modelled as integers, which is
all the claims need. -/
inductive Value where
  | null
  | bool (b : Bool)
  | num (n : Int)
  | str (s : String)
  | arr (items : List Value)
  | obj (fields : List (String × Value))
  deriving Repr

mutual

/-- Structural equality of documents (Rust's derived `PartialEq` on
`serde_json::Value`). -/
def Value.beq : Value → Value → Bool
  | .null, .null => true
  | .bool a, .bool b => a == b
  | .num a, .num b => a == b
  | .str a, .str b => a == b
  | .arr a, .arr b => beqValueList a b
  | .obj a, .obj b => beqValueFields a b
  | _, _ => false

/-- Pointwise structural equality of sequences. -/
def beqValueList : List Value → List Value → Bool
  | [], [] => true
  | x :: xs, y :: ys => Value.beq x y && beqValueList xs ys
  | _, _ => false

/-- Pointwise structural equality of mappings (keys and values). -/
def beqValueFields : List (String × Value) → List (String × Value) → Bool
  | [], [] => true
  | (k₁, v₁) :: xs, (k₂, v₂) :: ys =>
      k₁ == k₂ && Value.beq v₁ v₂ && beqValueFields xs ys
  | _, _ => false

end

mutual

theorem Value.beq_iff : ∀ a b : Value, Value.beq a b = true ↔ a = b
  | .null, b => by cases b <;> simp [Value.beq]
  | .bool x, b => by cases b <;> simp [Value.beq]
  | .num x, b => by cases b <;> simp [Value.beq]
  | .str x, b => by cases b <;> simp [Value.beq]
  | .arr xs, b => by
      cases b <;> simp [Value.beq]
      exact beqValueList_iff xs _
  | .obj xs, b => by
      cases b <;> simp [Value.beq]
      exact beqValueFields_iff xs _

theorem beqValueList_iff : ∀ a b : List Value, beqValueList a b = true ↔ a = b
  | [], b => by cases b <;> simp [beqValueList]
  | x :: xs, b => by
      cases b with
      | nil => simp [beqValueList]
      | cons y ys =>
          simp [beqValueList, Bool.and_eq_true, Value.beq_iff x y,
            beqValueList_iff xs ys]

theorem beqValueFields_iff :
    ∀ a b : List (String × Value), beqValueFields a b = true ↔ a = b
  | [], b => by cases b <;> simp [beqValueFields]
  | (k, v) :: xs, b => by
      cases b with
      | nil => simp [beqValueFields]
      | cons y ys =>
          obtain ⟨k₂, v₂⟩ := y
          simp [beqValueFields, Bool.and_eq_true, Value.beq_iff v v₂,
            beqValueFields_iff xs ys, and_assoc]

end

instance : DecidableEq Value := fun a b =>
  decidable_of_iff (Value.beq a b = true) (Value.beq_iff a b)

/-- `serde_json::Value::as_str`. -/
def Value.asStr : Value → Option String
  | .str s => some s
  | _ => none

/-- `serde_json::Map::get`: look a key up in an object's fields. -/
def objGet (fields : List (String × Value)) (k : String) : Option Value :=
  (fields.find? (fun p => p.1 = k)).map Prod.snd

/-- `serde_json::Value::as_object`, returning the field list. -/
def Value.asObj : Value → Option (List (String × Value))
  | .obj fields => some fields
  | _ => none

/-- `serde_json::Value::as_array`. -/
def Value.asArr : Value → Option (List Value)
  | .arr items => some items
  | _ => none

/-- `Value::get` on an object (`value.get("key")` in Rust). -/
def Value.getKey (v : Value) (k : String) : Option Value :=
  v.asObj.bind (fun fields => objGet fields k)

mutual

/-- `inner_crawl` from `ytpapi/src/structs.rs`: if the transformer matches
the node, push the result unless an equal one was already collected and do
not descend; otherwise recurse into sequence elements in order, or into
mapping values in key order; scalars end the branch. -/
def inner_crawl {T : Type} [DecidableEq T] (transformer : Value → Option T)
    (value : Value) (acc : List T) : List T :=
  match transformer value with
  | some e => if e ∈ acc then acc else acc ++ [e]
  | none =>
    match value with
    | .arr items => inner_crawl_list transformer items acc
    | .obj fields => inner_crawl_fields transformer fields acc
    | _ => acc

/-- Folds `inner_crawl` over the elements of a sequence, left to right. -/
def inner_crawl_list {T : Type} [DecidableEq T] (transformer : Value → Option T)
    (items : List Value) (acc : List T) : List T :=
  match items with
  | [] => acc
  | x :: rest => inner_crawl_list transformer rest (inner_crawl transformer x acc)

/-- Folds `inner_crawl` over the values of a mapping, in key order. -/
def inner_crawl_fields {T : Type} [DecidableEq T] (transformer : Value → Option T)
    (fields : List (String × Value)) (acc : List T) : List T :=
  match fields with
  | [] => acc
  | f :: rest => inner_crawl_fields transformer rest (inner_crawl transformer f.2 acc)

end

/-- `from_json` from `ytpapi/src/structs.rs`: one crawl starting from an
empty accumulator. (The Rust function always returns `Ok`; the `Result`
wrapper is dropped.) -/
def from_json {T : Type} [DecidableEq T] (json : Value)
    (transformer : Value → Option T) : List T :=
  inner_crawl transformer json []

/-- Rust `str::trim`: drop leading and trailing whitespace. Modelled over
the character list so that it evaluates in the kernel. -/
def rustTrim (s : String) : String :=
  ⟨((s.data.dropWhile Char.isWhitespace).reverse.dropWhile Char.isWhitespace).reverse⟩

/-- Rust `[String]::join(sep)`: empty for an empty list, otherwise the
elements interleaved with the separator. -/
def joinSep (sep : String) : List String → String
  | [] => ""
  | [x] => x
  | x :: rest => x ++ sep ++ joinSep sep rest

/-- `join_clean` from `ytpapi/src/structs.rs`: trim every string, drop the
ones that became empty, and join the rest with `" • "` when `dot` is set,
a single space otherwise. -/
def join_clean (strings : List String) (dot : Bool) : String :=
  joinSep (if dot then " • " else " ")
    ((strings.map rustTrim).filter (fun x => !x.data.isEmpty))

mutual

/-- `get_text` from `ytpapi/src/structs.rs`: a plain string is returned as
is; a mapping with key "text" recurses into that value, unless `text_clean`
is set and "text" is the mapping's only entry; a mapping with key "runs"
extracts text from every array element (dropping failures) and joins via
`join_clean`, returning nothing when no element yielded text; anything else
yields nothing. The `obj.get("text")` / `obj.get("runs")` lookups followed
by the recursive call are fused into the structurally recursive walks
`get_text_text_field` and `get_text_runs_field` (`lookup_text_eq` and
`lookup_runs_eq` below relate them to `objGet`), keeping the whole function
computable by the kernel. -/
def get_text (value : Value) (text_clean dot : Bool) : Option String :=
  match value with
  | .str e => some e
  | .obj obj =>
    match get_text_text_field obj text_clean dot with
    | some r => if text_clean && obj.length == 1 then none else r
    | none =>
      match get_text_runs_field obj text_clean dot with
      | some r => r
      | none => none
  | _ => none

/-- `obj.get("text")` fused with the recursive `get_text` call: the first
field named "text" yields `some` of the recursive extraction on its value;
`none` when the mapping has no "text" field. -/
def get_text_text_field : List (String × Value) → Bool → Bool → Option (Option String)
  | [], _, _ => none
  | (k, v) :: rest, text_clean, dot =>
    if k = "text" then some (get_text v text_clean dot)
    else get_text_text_field rest text_clean dot

/-- `obj.get("runs")` fused with the per-element extraction: the first
field named "runs" yields `some` of the runs extraction on its value
(`as_array` failure gives `some none`, the function's `?` on a non-array);
`none` when the mapping has no "runs" field. -/
def get_text_runs_field : List (String × Value) → Bool → Bool → Option (Option String)
  | [], _, _ => none
  | (k, v) :: rest, text_clean, dot =>
    if k = "runs" then some (get_text_runs v text_clean dot)
    else get_text_runs_field rest text_clean dot

/-- The body of the "runs" branch on the found value: require an array,
extract text from every element, and join non-empty results. -/
def get_text_runs (v : Value) (text_clean dot : Bool) : Option String :=
  match v with
  | .arr items =>
      let k := get_text_list items text_clean dot
      if k.isEmpty then none else some (join_clean k dot)
  | _ => none

/-- `flat_map(get_text)` over the elements of a "runs" array. -/
def get_text_list : List Value → Bool → Bool → List String
  | [], _, _ => []
  | x :: rest, text_clean, dot =>
    match get_text x text_clean dot with
    | some s => s :: get_text_list rest text_clean dot
    | none => get_text_list rest text_clean dot

end

mutual

/-- `get_videoid` from `ytpapi/src/structs.rs`: search the subtree depth
first for a field literally named "videoId" holding a string; in a mapping
its own "videoId" field is checked before recursing into its values. -/
def get_videoid : Value → Option String
  | .arr e => get_videoid_list e
  | .obj e =>
    match (objGet e "videoId").bind Value.asStr with
    | some x => some x
    | none => get_videoid_fields e
  | _ => none

/-- `find_map(get_videoid)` over sequence elements, in index order. -/
def get_videoid_list : List Value → Option String
  | [] => none
  | x :: rest =>
    match get_videoid x with
    | some s => some s
    | none => get_videoid_list rest

/-- `find_map(get_videoid)` over mapping values, in key order. -/
def get_videoid_fields : List (String × Value) → Option String
  | [] => none
  | f :: rest =>
    match get_videoid f.2 with
    | some s => some s
    | none => get_videoid_fields rest

end

/-- The `Playlist` struct of `ytpapi/src/structs.rs` (the spec's
Collection: name, subtitle, collectionId). -/
structure Playlist where
  name : String
  subtitle : String
  browse_id : String
  deriving DecidableEq, Repr

/-- Rust `str::strip_prefix("VL")`, as used by `get_playlist`: the rest of
the string when it starts with "VL", nothing otherwise. Modelled over the
character list so that it evaluates in the kernel. -/
def stripVL (s : String) : Option String :=
  if s.data.take 2 = ['V', 'L'] then some ⟨s.data.drop 2⟩ else none

/-- `get_playlist` from `ytpapi/src/structs.rs`: requires an object with a
"title" extracting text (singletons suppressed), the nested
navigationEndpoint→browseEndpoint→browseId string, and the "VL" prefix on
that id; produces the Playlist with the prefix stripped, subtitle optional. -/
def get_playlist (value : Value) : Option Playlist := do
  let object ← value.asObj
  let title_text ← get_text (← objGet object "title") true false
  let subtitle := (objGet object "subtitle").bind (fun x => get_text x false false)
  let browse_id ← ((objGet object "navigationEndpoint").bind
      (fun x => x.getKey "browseEndpoint")).bind
      (fun x => x.getKey "browseId")
  let browse_id ← browse_id.asStr
  let stripped ← stripVL browse_id
  pure { name := title_text, subtitle := subtitle.getD "", browse_id := stripped }

/-- The `Video` struct of `ytpapi/src/structs.rs` (the spec's MediaItem). -/
structure Video where
  title : String
  author : String
  album : String
  video_id : String
  duration : String
  deriving DecidableEq, Repr

/-- The text part of `get_video` (the `flat_map` over "flexColumns"): for
each element, take the first value of the element object and extract its
text with `text_clean` and `dot` both set, dropping columns where this
fails. -/
def video_texts : List Value → List String
  | [] => []
  | x :: rest =>
    match x.asObj.bind (fun ox => (ox.head?.map Prod.snd).bind
        (fun t => get_text t true true)) with
    | some s => s :: video_texts rest
    | none => video_texts rest

/-- `get_video` from `ytpapi/src/structs.rs`: requires an object with a
"flexColumns" array and a video id somewhere in the subtree; title and
author are the first two extracted column texts (both required), album the
third or empty; duration is always empty at extraction time. -/
def get_video (value : Value) : Option Video := do
  let o ← value.asObj
  let fc ← objGet o "flexColumns"
  let a ← fc.asArr
  let texts := video_texts a
  let video_id ← get_videoid value
  let title ← texts[0]?
  let author ← texts[1]?
  pure { title, author, album := texts[2]?.getD "", video_id, duration := "" }

/-! ## The incremental search pipeline (`src/term/search.rs`) -/

/-- The `Status` enum of `src/term/search.rs`: a local hit, an unknown
(remote) hit, or an expanded playlist. -/
inductive Status where
  | local (v : Video)
  | unknown (v : Video)
  | playList (p : Playlist) (videos : List Video)
  deriving DecidableEq, Repr

/-- Rust `String::to_lowercase`, modelled characterwise over the data. -/
def rustLowercase (s : String) : String :=
  ⟨s.data.map Char.toLower⟩

/-- Rust `String::pop`: remove the last character. -/
def rustPop (s : String) : String :=
  ⟨s.data.dropLast⟩

/-- Rust `String::push`. -/
def rustPush (s : String) (c : Char) : String :=
  ⟨s.data ++ [c]⟩

/-- Rust `str::contains(&str)` over character lists: does `n` occur as a
contiguous run inside `h`? -/
def charsContain (h n : List Char) : Bool :=
  n.isPrefixOf h ||
    match h with
    | [] => false
    | _ :: t => charsContain t n

/-- Rust `str::contains` on strings. -/
def strContains (h n : String) : Bool :=
  charsContain h.data n.data

/-- The `Display` impl of `Video` ("author | title") wrapped in the
`format!(" {video} ")` of `on_key_press`. -/
def fmtVideo (v : Video) : String :=
  " " ++ v.author ++ " | " ++ v.title ++ " "

/-- The label built for an expanded playlist entry. The exact string is
produced by an external formatter (`format_playlist`, outside this core)
around `format!(" [P] {} ({})", name, subtitle)`; its precise shape is
irrelevant to every claim. -/
def fmtPlaylistEntry (p : Playlist) : String :=
  " [P] " ++ p.name ++ " (" ++ p.subtitle ++ ")"

/-- The key events that reach the text-editing path of
`Search::on_key_press` (Esc and events consumed by the result-list widget
return earlier and never touch the query text). `Delete` and `Backspace`
are handled identically in the source: both pop the last character. -/
inductive EditKey where
  | char (c : Char)
  | backspace
  | delete
  | other
  deriving DecidableEq, Repr

/-- The text mutation performed by the `match key.code` block of
`on_key_press`. -/
def applyEdit : EditKey → String → String
  | .char c, t => rustPush t c
  | .backspace, t => rustPop t
  | .delete, t => rustPop t
  | .other, t => t

/-- The state of the `Search` screen that the claims are about: the query
text, the in-flight remote-search task handle (at most one, as a task id),
and whether the remote API client was constructed. The shared result list
is modelled through the emitted effects. -/
structure SearchState where
  text : String
  searchHandle : Option Nat
  api : Option Unit
  deriving DecidableEq, Repr

/-- The externally observable actions of one `on_key_press` call, in
program order. -/
inductive Effect where
  | abortTask (handle : Nat)
  | writeList (items : List (String × Status))
  | spawnRemote (handle : Nat) (queryText : String)
  deriving DecidableEq, Repr

/-- The local-match recomputation of `on_key_press`: filter the database by
case-insensitive substring match of the (lowercased) query against title or
author, format and tag each as `Status.local`, and keep at most 100. -/
def localMatches (db : List Video) (lowerText : String) : List (String × Status) :=
  ((db.filter (fun x =>
      strContains (rustLowercase x.title) lowerText ||
      strContains (rustLowercase x.author) lowerText)).map
    (fun video => (fmtVideo video, Status.local video))).take 100

/-- The text-editing path of `Search::on_key_press` (`src/term/search.rs`):
mutate the text; if the trimmed text is unchanged do nothing else;
otherwise abort the in-flight remote task if any, synchronously write the
local matches into the result list, and — only when the API client exists —
spawn a new remote task (modelled by the fresh handle `newHandle`) and
store its handle. Effects are listed in program order. -/
def on_key_press_edit (db : List Video) (s : SearchState) (key : EditKey)
    (newHandle : Nat) : SearchState × List Effect :=
  let textbefore := rustTrim s.text
  let text' := applyEdit key s.text
  if textbefore = rustTrim text' then
    ({ s with text := text' }, [])
  else
    let abortFx :=
      match s.searchHandle with
      | some h => [Effect.abortTask h]
      | none => []
    let locals := localMatches db (rustLowercase text')
    match s.api with
    | some _ =>
        ({ s with text := text', searchHandle := some newHandle },
          abortFx ++ [Effect.writeList locals, Effect.spawnRemote newHandle text'])
    | none =>
        ({ s with text := text', searchHandle := none },
          abortFx ++ [Effect.writeList locals])

/-- `Search::new` (`src/term/search.rs`): the API client construction
result is consumed with `.ok()`, so a failure leaves `api` empty and is
never surfaced; the screen starts with empty text and no in-flight task. -/
def search_new (apiOutcome : Except String Unit) : SearchState :=
  { text := "", searchHandle := none, api := apiOutcome.toOption }

/-- The externally observable actions of the remote-search task body and of
an expansion task, in program order. -/
inductive TaskEffect where
  | log (msg : String)
  | spawnExpansion (p : Playlist)
  | appendList (entry : String × Status)
  | updateList (items : List (String × Status))
  deriving DecidableEq, Repr

/-- The classification of a remote video inside the remote task body:
`Status.local` when a database entry shares its id, `Status.unknown`
otherwise. -/
def classify (db : List Video) (video : Video) : Status :=
  if db.any (fun x => x.video_id = video.video_id) then Status.local video
  else Status.unknown video

/-- The body of the remote-search task spawned by `on_key_press` (after the
300ms debounce), as a function of the `api.search` outcome: on success,
classify each returned video, spawn one expansion task per returned
playlist, and overwrite the result list with the local matches followed by
the classified videos; on failure, log once and overwrite with the local
matches alone (the `item` vector stays empty). -/
def remote_task_body (db : List Video) (locals : List (String × Status))
    (searchResult : Except String (List Video × List Playlist)) : List TaskEffect :=
  match searchResult with
  | .ok (e, p) =>
      let item := e.map (fun video => (fmtVideo video, classify db video))
      p.map TaskEffect.spawnExpansion ++ [TaskEffect.updateList (locals ++ item)]
  | .error err => [TaskEffect.log err, TaskEffect.updateList (locals ++ [])]

/-- The body of one playlist-expansion task, as a function of the
`api.browse_playlist` outcome: append one playlist entry when the expansion
is non-empty, append nothing (and return early) when it is empty, log once
and append nothing on failure. -/
def expansion_task_body (p : Playlist)
    (browseResult : Except String (List Video)) : List TaskEffect :=
  match browseResult with
  | .ok e =>
      if e.isEmpty then []
      else [TaskEffect.appendList (fmtPlaylistEntry p, Status.playList p e)]
  | .error err => [TaskEffect.log err]

/-! ## Shutdown and supervision (`src/main.rs`) -/

/-- `shutdown` (`src/main.rs`): `for _ in 0..100 { SIGNALING_STOP.0.send(()).unwrap() }`
— the unit wake-ups enqueued on the signal channel, one list element per
`send`. -/
def shutdown_sends : List Unit :=
  (List.range 100).map (fun _ => ())

/-- The signal channel and the wrapped tasks racing on it: `signals` unit
wake-ups are queued, `woken` wrapped tasks have consumed one each. -/
structure SignalState where
  signals : Nat
  woken : Nat
  deriving DecidableEq, Repr

/-- One `run_service` wrapper (`src/main.rs`) observing the shutdown
signal: its `select!` consumes exactly one wake-up from the channel, waking
exactly one wrapped task. -/
inductive SigStep : SignalState → SignalState → Prop
  | wake (s w : Nat) : SigStep ⟨s + 1, w⟩ ⟨s, w + 1⟩

/-- Any number of wrapped tasks consuming wake-ups, one at a time. -/
inductive SigReach : SignalState → SignalState → Prop
  | refl (st : SignalState) : SigReach st st
  | tail {a b c : SignalState} : SigReach a b → SigStep b c → SigReach a c

/-! ## Projections and concrete documents used by the claims -/

/-- The "flexColumns" array of a node, as `get_video` accesses it. -/
def flex_columns (v : Value) : Option (List Value) :=
  (v.asObj.bind (fun o => objGet o "flexColumns")).bind Value.asArr

/-- The navigationEndpoint→browseEndpoint→browseId string of a node, as
`get_playlist` accesses it. -/
def browse_id_path (v : Value) : Option String :=
  (((v.asObj.bind (fun o => objGet o "navigationEndpoint")).bind
    (fun x => x.getKey "browseEndpoint")).bind
    (fun x => x.getKey "browseId")).bind Value.asStr

/-- The spec's C1 matcher: select numbers greater than 5. -/
def numGt5 : Value → Option Int := fun v =>
  match v with
  | .num n => if 5 < n then some n else none
  | _ => none

/-- The spec's C1 document `[1, [6, 2], {"a": 7, "b": 3}]`. -/
def c1_doc : Value :=
  .arr [.num 1, .arr [.num 6, .num 2], .obj [("a", .num 7), ("b", .num 3)]]

/-- The spec's C2 matcher: match any mapping containing key "x", producing
the mapping itself. -/
def hasKeyX : Value → Option Value := fun v =>
  match v with
  | .obj fields => if (objGet fields "x").isSome then some v else none
  | _ => none

/-- The spec's C2 document `{"x": 1, "y": {"x": 2}}`. -/
def c2_doc : Value :=
  .obj [("x", .num 1), ("y", .obj [("x", .num 2)])]

/-- The spec's C5/C6 document
`{"runs": [{"text": "A"}, {"text": "  "}, {"text": "B"}]}`. -/
def runsABC_doc : Value :=
  .obj [("runs", .arr [.obj [("text", .str "A")], .obj [("text", .str "  ")],
    .obj [("text", .str "B")]])]

/-- A "runs" document whose only element extracts to pure whitespace:
`{"runs": [" "]}`. -/
def runsBlank_doc : Value :=
  .obj [("runs", .arr [.str " "])]

/-- A "runs" document of plain strings: `{"runs": ["A", "  ", "B"]}`. -/
def runsPlain_doc : Value :=
  .obj [("runs", .arr [.str "A", .str "  ", .str "B"])]

/-- The spec's C4 rejected document: browseId without the "VL" prefix. -/
def c4_reject_doc : Value :=
  .obj [("title", .str "T"),
    ("navigationEndpoint", .obj [("browseEndpoint",
      .obj [("browseId", .str "XYZ123")])])]

/-- The spec's C4 accepted document: same shape, browseId "VLXYZ123". -/
def c4_accept_doc : Value :=
  .obj [("title", .str "T"),
    ("navigationEndpoint", .obj [("browseEndpoint",
      .obj [("browseId", .str "VLXYZ123")])])]

/-- C4: the same document with the title missing. -/
def c4_no_title_doc : Value :=
  .obj [("navigationEndpoint", .obj [("browseEndpoint",
    .obj [("browseId", .str "VLXYZ123")])])]

/-- C4: the same document with the browse path missing. -/
def c4_no_path_doc : Value :=
  .obj [("title", .str "T")]

/-- A flexColumn wrapper holding one text value next to a second field (so
that the singleton-"text" suppression does not fire). -/
def flexCol (s : String) : Value :=
  .obj [("renderer", .obj [("text", .obj [("runs", .arr [.str s])]),
    ("displayPriority", .str "high")])]

/-- C3: a media-item node with three usable columns and a video id. -/
def c3_video_doc : Value :=
  .obj [("flexColumns", .arr [flexCol "Title", flexCol "Author", flexCol "Album"]),
    ("videoId", .str "id123")]

/-- C3: a node with only one usable flexColumn. -/
def c3_one_column_doc : Value :=
  .obj [("flexColumns", .arr [flexCol "Title"]), ("videoId", .str "id123")]

/-- C3: a node with two usable columns but no identifier in the subtree. -/
def c3_no_id_doc : Value :=
  .obj [("flexColumns", .arr [flexCol "Title", flexCol "Author"])]

/-! ## Helper lemmas -/

theorem objGet_nil (k : String) : objGet [] k = none := rfl

theorem objGet_cons (k k' : String) (v : Value) (fields : List (String × Value)) :
    objGet ((k', v) :: fields) k = if k' = k then some v else objGet fields k := by
  by_cases h : k' = k <;> simp [objGet, List.find?, h]

/-- Manual unfolding equation for `get_text`. -/
theorem get_text_eq (value : Value) (tc d : Bool) :
    get_text value tc d =
      match value with
      | .str e => some e
      | .obj obj =>
        (match get_text_text_field obj tc d with
         | some r => if tc && obj.length == 1 then none else r
         | none =>
           match get_text_runs_field obj tc d with
           | some r => r
           | none => none)
      | _ => none := by
  cases value <;> rfl

/-- The fused "text" walk agrees with `obj.get("text")` followed by the
recursive extraction. -/
theorem lookup_text_eq (fields : List (String × Value)) (tc d : Bool) :
    get_text_text_field fields tc d =
      (objGet fields "text").map (fun e => get_text e tc d) := by
  induction fields with
  | nil => rfl
  | cons f rest ih =>
      obtain ⟨k, v⟩ := f
      by_cases h : k = "text" <;>
        simp [get_text_text_field, objGet_cons, h, ih]

/-- The fused "runs" walk agrees with `obj.get("runs")` followed by the
runs extraction. -/
theorem lookup_runs_eq (fields : List (String × Value)) (tc d : Bool) :
    get_text_runs_field fields tc d =
      (objGet fields "runs").map (fun v => get_text_runs v tc d) := by
  induction fields with
  | nil => rfl
  | cons f rest ih =>
      obtain ⟨k, v⟩ := f
      by_cases h : k = "runs" <;>
        simp [get_text_runs_field, objGet_cons, h, ih]

theorem get_text_str (e : String) (tc d : Bool) : get_text (.str e) tc d = some e := rfl

theorem get_text_obj_text {fields : List (String × Value)} {e : Value} (tc d : Bool)
    (h : objGet fields "text" = some e) :
    get_text (.obj fields) tc d =
      if tc && fields.length == 1 then none else get_text e tc d := by
  have hl : get_text_text_field fields tc d = some (get_text e tc d) := by
    rw [lookup_text_eq, h]
    rfl
  rw [get_text_eq]
  simp only [hl]

theorem get_text_obj_runs {fields : List (String × Value)} {items : List Value} (tc d : Bool)
    (h : objGet fields "text" = none) (h' : objGet fields "runs" = some (.arr items)) :
    get_text (.obj fields) tc d =
      if (get_text_list items tc d).isEmpty then none
      else some (join_clean (get_text_list items tc d) d) := by
  have hl : get_text_text_field fields tc d = none := by
    rw [lookup_text_eq, h]
    rfl
  have hr : get_text_runs_field fields tc d
      = some (get_text_runs (.arr items) tc d) := by
    rw [lookup_runs_eq, h']
    rfl
  rw [get_text_eq]
  simp only [hl, hr]
  rfl

theorem get_text_list_nil (tc d : Bool) : get_text_list [] tc d = [] := rfl

theorem get_text_list_cons_some {x : Value} {s : String} (rest : List Value) (tc d : Bool)
    (hx : get_text x tc d = some s) :
    get_text_list (x :: rest) tc d = s :: get_text_list rest tc d := by
  rw [get_text_list, hx]

theorem get_text_list_cons_none {x : Value} (rest : List Value) (tc d : Bool)
    (hx : get_text x tc d = none) :
    get_text_list (x :: rest) tc d = get_text_list rest tc d := by
  rw [get_text_list, hx]

/-- Manual unfolding equation for `inner_crawl`. -/
theorem inner_crawl_eq {T : Type} [DecidableEq T] (t : Value → Option T)
    (v : Value) (acc : List T) :
    inner_crawl t v acc =
      match t v with
      | some e => if e ∈ acc then acc else acc ++ [e]
      | none =>
        match v with
        | .arr items => inner_crawl_list t items acc
        | .obj fields => inner_crawl_fields t fields acc
        | _ => acc := by
  cases v <;> rfl

/-- Manual unfolding equation for `inner_crawl_list`. -/
theorem inner_crawl_list_eq {T : Type} [DecidableEq T] (t : Value → Option T)
    (items : List Value) (acc : List T) :
    inner_crawl_list t items acc =
      match items with
      | [] => acc
      | x :: rest => inner_crawl_list t rest (inner_crawl t x acc) := by
  cases items <;> rfl

/-- Manual unfolding equation for `inner_crawl_fields`. -/
theorem inner_crawl_fields_eq {T : Type} [DecidableEq T] (t : Value → Option T)
    (fields : List (String × Value)) (acc : List T) :
    inner_crawl_fields t fields acc =
      match fields with
      | [] => acc
      | f :: rest => inner_crawl_fields t rest (inner_crawl t f.2 acc) := by
  cases fields <;> rfl

theorem get_video_eq (v : Value) :
    get_video v =
      match flex_columns v with
      | none => none
      | some a =>
        match get_videoid v with
        | none => none
        | some vid =>
          match (video_texts a)[0]? with
          | none => none
          | some title =>
            match (video_texts a)[1]? with
            | none => none
            | some author =>
              some ⟨title, author, (video_texts a)[2]?.getD "", vid, ""⟩ := by
  simp only [get_video, flex_columns]
  cases h1 : v.asObj with
  | none => simp
  | some o =>
      simp only [Option.some_bind]
      cases h2 : objGet o "flexColumns" with
      | none => simp [h2]
      | some fc =>
          simp only [Option.some_bind]
          cases h3 : fc.asArr with
          | none => simp [h2, h3]
          | some a =>
              simp only [Option.some_bind]
              cases h4 : get_videoid v with
              | none => simp [h2, h3, h4]
              | some vid =>
                  simp only [Option.some_bind]
                  cases h5 : (video_texts a)[0]? with
                  | none => simp [h2, h3, h4, h5]
                  | some t =>
                      simp only [Option.some_bind]
                      cases h6 : (video_texts a)[1]? with
                      | none => simp [h2, h3, h4, h5, h6]
                      | some au => simp [h2, h3, h4, h5, h6]

theorem get_playlist_eq (v : Value) :
    get_playlist v =
      match v.asObj with
      | none => none
      | some o =>
        match objGet o "title" with
        | none => none
        | some t =>
          match get_text t true false with
          | none => none
          | some name =>
            match browse_id_path v with
            | none => none
            | some s =>
              match stripVL s with
              | none => none
              | some bid =>
                some ⟨name,
                  ((objGet o "subtitle").bind (fun x => get_text x false false)).getD "",
                  bid⟩ := by
  simp only [get_playlist, browse_id_path]
  cases h1 : v.asObj with
  | none => simp
  | some o =>
      simp only [Option.some_bind]
      cases h2 : objGet o "title" with
      | none => simp [h2]
      | some t =>
          simp only [Option.some_bind]
          cases h3 : get_text t true false with
          | none => simp [h2, h3]
          | some name =>
              simp only [Option.some_bind]
              cases h4 : ((objGet o "navigationEndpoint").bind
                  (fun x => x.getKey "browseEndpoint")).bind (fun x => x.getKey "browseId") with
              | none => simp [h2, h3, h4]
              | some bidv =>
                  simp only [Option.some_bind]
                  cases h5 : bidv.asStr with
                  | none => simp [h2, h3, h4, h5]
                  | some s =>
                      simp only [Option.some_bind]
                      cases h6 : stripVL s with
                      | none => simp [h2, h3, h4, h5, h6]
                      | some bid => simp [h2, h3, h4, h5, h6]


/-- One crawl step on a matched node: the result is recorded (deduplicated)
and the node's children are never visited. -/
theorem inner_crawl_matched {T : Type} [DecidableEq T] {t : Value → Option T}
    {v : Value} {e : T} (acc : List T) (h : t v = some e) :
    inner_crawl t v acc = if e ∈ acc then acc else acc ++ [e] := by
  rw [inner_crawl_eq, h]

mutual

theorem inner_crawl_nodup {T : Type} [DecidableEq T] (t : Value → Option T) :
    ∀ (v : Value) (acc : List T), acc.Nodup → (inner_crawl t v acc).Nodup
  | v, acc, h => by
    rw [inner_crawl_eq]
    cases ht : t v with
    | some e =>
        by_cases he : e ∈ acc
        · simpa [he] using h
        · simp only [he, if_false]
          simp [List.nodup_append, h, he]
    | none =>
        cases v with
        | arr items => exact inner_crawl_list_nodup t items acc h
        | obj fields => exact inner_crawl_fields_nodup t fields acc h
        | null => exact h
        | bool b => exact h
        | num n => exact h
        | str s => exact h

theorem inner_crawl_list_nodup {T : Type} [DecidableEq T] (t : Value → Option T) :
    ∀ (items : List Value) (acc : List T), acc.Nodup →
      (inner_crawl_list t items acc).Nodup
  | [], acc, h => by
      rw [inner_crawl_list_eq]
      exact h
  | x :: rest, acc, h => by
      rw [inner_crawl_list_eq]
      exact inner_crawl_list_nodup t rest _ (inner_crawl_nodup t x acc h)

theorem inner_crawl_fields_nodup {T : Type} [DecidableEq T] (t : Value → Option T) :
    ∀ (fields : List (String × Value)) (acc : List T), acc.Nodup →
      (inner_crawl_fields t fields acc).Nodup
  | [], acc, h => by
      rw [inner_crawl_fields_eq]
      exact h
  | f :: rest, acc, h => by
      rw [inner_crawl_fields_eq]
      exact inner_crawl_fields_nodup t rest _ (inner_crawl_nodup t f.2 acc h)

end

/-! ## Claims -/

/-- C1: `crawl(document, matcher)` traverses depth-first in pre-order
(sequence elements in index order, mapping values in key order), collects
matcher results in first-match order, and its output never contains two
structurally-equal elements; crawling `[1, [6, 2], {"a": 7, "b": 3}]` with
a matcher selecting numbers greater than 5 yields exactly `[6, 7]`. -/
theorem c1_crawl_preorder_nodup :
    (∀ (T : Type) [DecidableEq T] (m : Value → Option T) (d : Value),
      (from_json d m).Nodup) ∧
    from_json c1_doc numGt5 = [6, 7] :=
  ⟨fun _ _ m d => inner_crawl_nodup m d [] List.nodup_nil, rfl⟩

/-- C1 witness: the no-duplicates invariant instantiated at the spec's
concrete document and matcher. -/
theorem c1_crawl_preorder_nodup_witness :
    (from_json c1_doc numGt5).Nodup :=
  c1_crawl_preorder_nodup.1 Int numGt5 c1_doc

/-- C2: once a node satisfies the matcher the Crawler does not visit that
node's descendants — crawling any document whose root matches yields just
that one result; a matcher matching any mapping containing key "x" applied
to `{"x": 1, "y": {"x": 2}}` yields exactly one result, the outer mapping. -/
theorem c2_match_then_stop :
    (∀ (T : Type) [DecidableEq T] (t : Value → Option T) (v : Value) (e : T),
      t v = some e → from_json v t = [e]) ∧
    from_json c2_doc hasKeyX = [c2_doc] := by
  constructor
  · intro T _ t v e h
    show inner_crawl t v [] = [e]
    rw [inner_crawl_matched [] h]
    simp
  · rfl

/-- C2 witness: the match-then-stop law applied to the spec's concrete
document, whose root already matches. -/
theorem c2_match_then_stop_witness :
    from_json c2_doc hasKeyX = [c2_doc] :=
  c2_match_then_stop.1 Value hasKeyX c2_doc c2_doc rfl

/-- C5 counterexample: on `{"runs": [" "]}` every element extracts to
whitespace-only text, so the joined result is empty — yet `get_text`
returns the empty string, not nothing, refuting "returns nothing if the
joined result would be empty". -/
theorem c5_counterexample :
    get_text runsBlank_doc false false = some "" ∧
    get_text runsBlank_doc false false ≠ none := by
  constructor
  · decide
  · decide

/-- C5 (amended): `extractText` on a mapping with key "runs" recursively
extracts text from every element, dropping elements whose extraction
fails; it returns nothing only when no element yields any text, and
otherwise joins the extracted strings after trimming and dropping the ones
that became empty, with a single space (or " • " when `useBulletJoin` is
set) — the join may be the empty string when every extracted element is
whitespace-only; concretely
`extractText({"runs": [{"text": "A"}, {"text": "  "}, {"text": "B"}]}, false, false) = "A B"`. -/
theorem c5_runs_join :
    (∀ (fields : List (String × Value)) (items : List Value) (tc d : Bool),
      objGet fields "text" = none →
      objGet fields "runs" = some (.arr items) →
      get_text (.obj fields) tc d =
        if (get_text_list items tc d).isEmpty then none
        else some (join_clean (get_text_list items tc d) d)) ∧
    join_clean ["A", "  ", "B"] false = "A B" ∧
    join_clean ["A", "  ", "B"] true = "A • B" ∧
    get_text runsABC_doc false false = some "A B" := by
  refine ⟨fun fields items tc d h h' => get_text_obj_runs tc d h h', by decide, by decide, ?_⟩
  decide

/-- C5 witness: the runs rule applied to the concrete document
`{"runs": [" "]}`. -/
theorem c5_runs_join_witness :
    get_text (.obj [("runs", .arr [.str " "])]) false false =
      if (get_text_list [.str " "] false false).isEmpty then none
      else some (join_clean (get_text_list [.str " "] false false) false) :=
  c5_runs_join.1 [("runs", .arr [.str " "])] [.str " "] false false rfl rfl

/-- C6 counterexample: with `suppressSingleton` set, every element of
`{"runs": [{"text": "A"}, {"text": "  "}, {"text": "B"}]}` is a bare
one-key "text" wrapper and is itself suppressed, so the whole extraction
yields nothing — not `"A • B"` as claimed. -/
theorem c6_counterexample :
    get_text runsABC_doc true true = none ∧
    get_text runsABC_doc true true ≠ some "A • B" := by
  constructor
  · decide
  · decide

/-- C6 (amended): `suppressSingleton` makes a mapping whose only key is
"text" (a bare marker wrapper) return nothing, so on
`{"runs": [{"text": "A"}, {"text": "  "}, {"text": "B"}]}` with both flags
set every run is suppressed and the result is nothing; on plain-string
runs `{"runs": ["A", "  ", "B"]}` the same flags yield `"A • B"` — the
blank run dropped and the survivors joined with the bullet separator. -/
theorem c6_suppress_singleton_bullet :
    get_text runsABC_doc true true = none ∧
    (∀ (fields : List (String × Value)) (e : Value) (d : Bool),
      objGet fields "text" = some e → fields.length = 1 →
      get_text (.obj fields) true d = none) ∧
    get_text runsPlain_doc true true = some "A • B" := by
  refine ⟨?_, fun fields e d h hl => ?_, ?_⟩
  · decide
  · rw [get_text_obj_text true d h]
    simp [hl]
  · decide

/-- C6 witness: the singleton-suppression rule applied to the bare wrapper
`{"text": "A"}`. -/
theorem c6_suppress_singleton_bullet_witness :
    get_text (.obj [("text", .str "A")]) true true = none :=
  c6_suppress_singleton_bullet.2.1 [("text", .str "A")] (.str "A") true rfl rfl

/-- C3: `mediaItem(node)` produces a MediaItem only when the node has a
"flexColumns" sequence yielding at least two usable text columns and an
identifier in its subtree, with title the first extracted column, author
the second, album the third or empty; one usable column, or no identifier
anywhere, yields nothing. -/
theorem c3_media_item_shape :
    (∀ (v : Value) (m : Video), get_video v = some m →
        ∃ a, flex_columns v = some a ∧
          2 ≤ (video_texts a).length ∧
          (video_texts a)[0]? = some m.title ∧
          (video_texts a)[1]? = some m.author ∧
          m.album = (video_texts a)[2]?.getD "" ∧
          get_videoid v = some m.video_id) ∧
    (∀ (v : Value) (a : List Value), flex_columns v = some a →
        (video_texts a).length ≤ 1 → get_video v = none) ∧
    (∀ v : Value, get_videoid v = none → get_video v = none) ∧
    get_video c3_video_doc = some ⟨"Title", "Author", "Album", "id123", ""⟩ ∧
    get_video c3_one_column_doc = none ∧
    get_video c3_no_id_doc = none := by
  refine ⟨?_, ?_, ?_, ?_, ?_, ?_⟩
  · intro v m h
    rw [get_video_eq] at h
    cases hfc : flex_columns v with
    | none => simp [hfc] at h
    | some a =>
        simp only [hfc] at h
        cases hvid : get_videoid v with
        | none => simp [hvid] at h
        | some vid =>
            simp only [hvid] at h
            cases h0 : (video_texts a)[0]? with
            | none => simp [h0] at h
            | some t =>
                simp only [h0] at h
                cases h1 : (video_texts a)[1]? with
                | none => simp [h1] at h
                | some au =>
                    simp only [h1, Option.some.injEq] at h
                    subst h
                    have hlen : 1 < (video_texts a).length := by
                      rcases List.getElem?_eq_some.mp h1 with ⟨hl, _⟩
                      exact hl
                    exact ⟨a, rfl, by omega, h0, h1, rfl, rfl⟩
  · intro v a hfc hlen
    rw [get_video_eq]
    simp only [hfc]
    cases hvid : get_videoid v with
    | none => simp [hvid]
    | some vid =>
        simp only [hvid]
        have h1 : (video_texts a)[1]? = none := by
          rw [List.getElem?_eq_none_iff]
          omega
        cases h0 : (video_texts a)[0]? with
        | none => simp [h0]
        | some t => simp [h0, h1]
  · intro v h
    rw [get_video_eq]
    cases hfc : flex_columns v with
    | none => simp [hfc]
    | some a => simp [hfc, h]
  · decide
  · decide
  · decide

/-- C3 witness: a node with no identifier anywhere (the null document)
yields nothing. -/
theorem c3_media_item_shape_witness : get_video Value.null = none :=
  c3_media_item_shape.2.2.1 Value.null rfl

/-- C4: `collection(node)` rejects outright — returning nothing — any node
whose browseId lacks the "VL" prefix, or whose title or
navigationEndpoint→browseEndpoint→browseId path is missing; with browseId
"VLXYZ123" and the same shape it accepts, producing collectionId "XYZ123"
with the prefix stripped. -/
theorem c4_collection_guard :
    (∀ (v : Value) (s : String), browse_id_path v = some s → stripVL s = none →
        get_playlist v = none) ∧
    (∀ (v : Value) (p : Playlist), get_playlist v = some p →
        ∃ s, browse_id_path v = some s ∧ stripVL s = some p.browse_id) ∧
    get_playlist c4_reject_doc = none ∧
    get_playlist c4_accept_doc = some ⟨"T", "", "XYZ123"⟩ ∧
    get_playlist c4_no_title_doc = none ∧
    get_playlist c4_no_path_doc = none := by
  refine ⟨?_, ?_, ?_, ?_, ?_, ?_⟩
  · intro v s hs hstrip
    rw [get_playlist_eq]
    cases h1 : v.asObj with
    | none => simp [h1]
    | some o =>
        simp only [h1]
        cases h2 : objGet o "title" with
        | none => simp [h2]
        | some t =>
            simp only [h2]
            cases h3 : get_text t true false with
            | none => simp [h3]
            | some name => simp [h3, hs, hstrip]
  · intro v p h
    rw [get_playlist_eq] at h
    cases h1 : v.asObj with
    | none => simp [h1] at h
    | some o =>
        simp only [h1] at h
        cases h2 : objGet o "title" with
        | none => simp [h2] at h
        | some t =>
            simp only [h2] at h
            cases h3 : get_text t true false with
            | none => simp [h3] at h
            | some name =>
                simp only [h3] at h
                cases h4 : browse_id_path v with
                | none => simp [h4] at h
                | some s =>
                    simp only [h4] at h
                    cases h5 : stripVL s with
                    | none => simp [h5] at h
                    | some bid =>
                        simp only [h5, Option.some.injEq] at h
                        subst h
                        exact ⟨s, rfl, h5⟩
  · decide
  · decide
  · decide
  · decide

/-- C4 witness: the prefix guard applied to the concrete rejected
document, whose browseId "XYZ123" lacks the "VL" prefix. -/
theorem c4_collection_guard_witness : get_playlist c4_reject_doc = none :=
  c4_collection_guard.1 c4_reject_doc "XYZ123" (by decide) (by decide)

theorem sigReach_conserved {a b : SignalState} (h : SigReach a b) :
    b.signals + b.woken = a.signals + a.woken := by
  induction h with
  | refl => rfl
  | tail _ step ih =>
      cases step
      simp_all
      omega

/-- C7: on a key event that changes the trimmed query text, the pipeline
aborts the in-flight remote task first, then synchronously writes at most
100 local matches — title/author case-insensitive substring hits, tagged
local — into the result list, and only then spawns and stores the new
remote task; an edit leaving the trimmed text unchanged does none of
this. -/
theorem c7_input_change_pipeline :
    (∀ (db : List Video) (s : SearchState) (key : EditKey) (nh : Nat),
      rustTrim s.text = rustTrim (applyEdit key s.text) →
      on_key_press_edit db s key nh = ({ s with text := applyEdit key s.text }, [])) ∧
    (∀ (db : List Video) (s : SearchState) (key : EditKey) (nh h : Nat),
      rustTrim s.text ≠ rustTrim (applyEdit key s.text) →
      s.searchHandle = some h → s.api = some () →
      (on_key_press_edit db s key nh).2 =
        [Effect.abortTask h,
         Effect.writeList (localMatches db (rustLowercase (applyEdit key s.text))),
         Effect.spawnRemote nh (applyEdit key s.text)] ∧
      (on_key_press_edit db s key nh).1.searchHandle = some nh) ∧
    (∀ (db : List Video) (text : String),
      (localMatches db text).length ≤ 100 ∧
      ∀ entry ∈ localMatches db text, ∃ video,
        entry = (fmtVideo video, Status.local video) ∧
        (strContains (rustLowercase video.title) text ||
         strContains (rustLowercase video.author) text) = true) := by
  refine ⟨?_, ?_, ?_⟩
  · intro db s key nh heq
    simp [on_key_press_edit, heq]
  · intro db s key nh h hne hh ha
    simp [on_key_press_edit, hne, hh, ha]
  · intro db text
    constructor
    · simp only [localMatches, List.length_take]
      omega
    · intro entry hm
      have hm' := List.mem_of_mem_take hm
      rcases List.mem_map.mp hm' with ⟨video, hv, rfl⟩
      rcases List.mem_filter.mp hv with ⟨_, hpred⟩
      exact ⟨video, rfl, hpred⟩

/-- C7 witness: an edit that leaves the trimmed text unchanged (here: a
plain space appended to the empty query) performs no abort, no write and
no spawn. -/
theorem c7_input_change_pipeline_witness :
    on_key_press_edit [] ⟨"", none, none⟩ (EditKey.char ' ') 0 =
      ({ text := applyEdit (EditKey.char ' ') "", searchHandle := none, api := none }, []) :=
  c7_input_change_pipeline.1 [] ⟨"", none, none⟩ (EditKey.char ' ') 0 (by decide)

/-- C8: remote failures never abort the pipeline or surface: a failed
remote search leaves the previously computed local matches as the result
list and logs exactly once; a failed collection expansion logs once and
appends nothing; an expansion returning zero members appends nothing. -/
theorem c8_remote_failure_semantics :
    (∀ (db : List Video) (locals : List (String × Status)) (err : String),
      remote_task_body db locals (.error err) =
        [TaskEffect.log err, TaskEffect.updateList locals] ∧
      ((remote_task_body db locals (.error err)).filter
        (fun fx => match fx with | TaskEffect.log _ => true | _ => false)).length = 1) ∧
    (∀ (p : Playlist) (err : String),
      expansion_task_body p (.error err) = [TaskEffect.log err]) ∧
    (∀ p : Playlist, expansion_task_body p (.ok []) = []) := by
  refine ⟨fun db locals err => ⟨?_, ?_⟩, fun p err => rfl, fun p => rfl⟩
  · simp [remote_task_body]
  · simp [remote_task_body, List.filter]

/-- C9: the process-wide shutdown enqueues exactly 100 individual unit
wake-ups, each wrapped task's race consumes exactly one, so across any
sequence of wake-ups at most 100 tasks are woken — with more than 100
wrapped tasks concurrently alive, the excess never receive the signal. -/
theorem c9_shutdown_fixed_fanout :
    shutdown_sends.length = 100 ∧
    (∀ st : SignalState, SigReach ⟨shutdown_sends.length, 0⟩ st →
      st.woken ≤ 100 ∧ ∀ n : Nat, 100 < n → st.woken < n) := by
  refine ⟨rfl, fun st h => ?_⟩
  have hc := sigReach_conserved h
  simp [shutdown_sends] at hc
  constructor
  · omega
  · intro n hn
    omega

/-- C9 witness: the bound applied to the initial state, before any task
consumed a wake-up. -/
theorem c9_shutdown_fixed_fanout_witness :
    (⟨shutdown_sends.length, 0⟩ : SignalState).woken ≤ 100 ∧
    ∀ n : Nat, 100 < n → (⟨shutdown_sends.length, 0⟩ : SignalState).woken < n :=
  c9_shutdown_fixed_fanout.2 ⟨shutdown_sends.length, 0⟩ (SigReach.refl _)

/-- C10: when the API client cannot be constructed the screen starts (and
stays) in local-only mode: the construction error is swallowed, every
text-changing edit still writes the local matches, and no remote task is
ever spawned. -/
theorem c10_local_only_degraded :
    (∀ err : String, search_new (.error err) =
      { text := "", searchHandle := none, api := none }) ∧
    (∀ (db : List Video) (s : SearchState) (key : EditKey) (nh : Nat),
      s.api = none →
      (on_key_press_edit db s key nh).1.api = none ∧
      (∀ fx ∈ (on_key_press_edit db s key nh).2, ∀ (h : Nat) (t : String),
        fx ≠ Effect.spawnRemote h t) ∧
      (rustTrim s.text ≠ rustTrim (applyEdit key s.text) →
        Effect.writeList (localMatches db (rustLowercase (applyEdit key s.text)))
          ∈ (on_key_press_edit db s key nh).2)) := by
  refine ⟨fun err => rfl, fun db s key nh ha => ?_⟩
  by_cases heq : rustTrim s.text = rustTrim (applyEdit key s.text)
  · refine ⟨?_, ?_, ?_⟩
    · simp [on_key_press_edit, heq, ha]
    · simp [on_key_press_edit, heq]
    · intro hne
      exact absurd heq hne
  · cases hh : s.searchHandle with
    | none =>
        refine ⟨?_, ?_, ?_⟩
        · simp [on_key_press_edit, heq, ha, hh]
        · simp [on_key_press_edit, heq, ha, hh]
        · intro _
          simp [on_key_press_edit, heq, ha, hh]
    | some h =>
        refine ⟨?_, ?_, ?_⟩
        · simp [on_key_press_edit, heq, ha, hh]
        · simp [on_key_press_edit, heq, ha, hh]
        · intro _
          simp [on_key_press_edit, heq, ha, hh]

/-- C10 witness: with no API client, deleting the only character of the
query recomputes the (empty-database) local matches and spawns nothing. -/
theorem c10_local_only_degraded_witness :
    (on_key_press_edit [] ⟨"a", none, none⟩ EditKey.backspace 0).1.api = none :=
  (c10_local_only_degraded.2 [] ⟨"a", none, none⟩ EditKey.backspace 0 rfl).1

end YT
